import Mathlib

/-!
Shallow embedding of `cablo_telegram_chatbot_magic/run.py`: the dedup store,
per-user conversation memory, prompt builder, backend-response dispatch and
the per-message processing step of the polling loop, together with proofs of
the specified properties.

Python `set` objects are modelled as duplicate-free lists maintained with
`List.insert` (insert only if absent), so that membership — the only operation
the program uses besides enumeration — is preserved exactly.
-/

namespace CabloBot

/-- Constant `MAX_HISTORY = 10` from `run.py`. -/
def MAX_HISTORY : Nat := 10

/-- Python `p in s`: prefix test on character lists. -/
def isPre : List Char → List Char → Bool
  | [], _ => true
  | _ :: _, [] => false
  | p :: ps, c :: cs => p == c && isPre ps cs

/-- Python `p in s`: the pattern occurs somewhere in the list. -/
def listSub (pat : List Char) : List Char → Bool
  | [] => pat.isEmpty
  | c :: cs => isPre pat (c :: cs) || listSub pat cs

/-- Python `pat in s` on strings. -/
def strContains (s pat : String) : Bool := listSub pat.data s.data

/-- Python `str.lower()` on the character list of a string. -/
def pyLower (l : List Char) : List Char := l.map Char.toLower

/-- The test `'method' in error_msg.lower()` from `run.py`. -/
def mentionsMethod (emsg : String) : Bool := listSub ("method".data) (pyLower emsg.data)

/-- Python `str.isspace` characters relevant to `str.strip()`. -/
def pySpace (c : Char) : Bool :=
  c == ' ' || c == '\t' || c == '\n' || c == '\r' || c == '\x0b' || c == '\x0c'

/-- Python `line.strip()`: remove leading and trailing whitespace. -/
def pyStrip (l : List Char) : List Char :=
  ((l.dropWhile pySpace).reverse.dropWhile pySpace).reverse

/-- Value of a decimal digit character, `none` otherwise. -/
def digitVal (c : Char) : Option Nat :=
  if c == '0' then some 0 else if c == '1' then some 1 else if c == '2' then some 2
  else if c == '3' then some 3 else if c == '4' then some 4 else if c == '5' then some 5
  else if c == '6' then some 6 else if c == '7' then some 7 else if c == '8' then some 8
  else if c == '9' then some 9 else none

/-- Accumulating decimal evaluation; `none` on any non-digit. -/
def digitsVal (acc : Nat) : List Char → Option Nat
  | [] => some acc
  | c :: cs =>
      match digitVal c with
      | none => none
      | some d => digitsVal (acc * 10 + d) cs

/-- Python `int(s)` on an already-stripped string: optional sign followed by at
least one decimal digit, `none` (a raised `ValueError`) otherwise. -/
def pyInt (l : List Char) : Option Int :=
  match l with
  | [] => none
  | '-' :: rest =>
      match rest with
      | [] => none
      | _ => (digitsVal 0 rest).map (fun n => -(n : Int))
  | '+' :: rest =>
      match rest with
      | [] => none
      | _ => (digitsVal 0 rest).map (fun n => (n : Int))
  | _ => (digitsVal 0 l).map (fun n => (n : Int))

/-- Python `l[-n:]`: the last `n` elements of a list (all of them if shorter). -/
def lastN (n : Nat) (l : List α) : List α := l.drop (l.length - n)

/-- Function `update_history` from `run.py`: append the `(role, message)` pair and, if the
list now exceeds `MAX_HISTORY * 2` entries, keep only the last `MAX_HISTORY * 2`. -/
def update_history (hist : List (String × String)) (role msgText : String) :
    List (String × String) :=
  let h := hist ++ [(role, msgText)]
  if MAX_HISTORY * 2 < h.length then lastN (MAX_HISTORY * 2) h else h

/-- The `history_text` block built inside `build_prompt_with_history`: empty when the
history is empty, otherwise a `Previous conversation:` header followed by the last
`MAX_HISTORY` entries as `role: message` lines and a blank line. -/
def history_text (history : List (String × String)) : String :=
  if history.isEmpty then ("")
  else
    "Previous conversation:\n" ++
      String.join ((lastN MAX_HISTORY history).map (fun p => p.1 ++ ": " ++ p.2 ++ "\n")) ++
      "\n"

/-- Function `build_prompt_with_history` from `run.py`, as a function of the knowledge text,
the user's history and the current message (the Python function reads the history
from the module-level map; `RAG.KNOWLEDGE` is an opaque static string, passed in as
a parameter). The f-string layout of the source is kept verbatim, including its
indentation. -/
def build_prompt_with_history (knowledge : String) (history : List (String × String))
    (current_message : String) : String :=
  knowledge ++ "\n\n    " ++ history_text history ++ "Current message: " ++ current_message ++
    "\n\n    Please respond appropriately based on the context and previous conversation."

/-- A fetched Telegram message, with exactly the fields `run.py` reads.
`text = none` models Python `msg.text is None`; the empty string is also falsy. -/
structure Message where
  id : Nat
  sender_id : Nat
  text : Option String
  out : Bool
  is_private : Bool
  deriving DecidableEq, Repr

/-- Python truthiness of `msg.text`: present and non-empty. -/
def Message.hasText (m : Message) : Bool :=
  match m.text with
  | none => false
  | some s => !s.isEmpty

/-- The classified reply of `generate_G2_flash`, per the dispatch in `run.py`:
a dict with a `result` field (whose reply text has already been extracted),
a dict with an `error` field (message text, defaulted to "Unknown error"),
any other shape, or an exception escaping the call. -/
inductive BackendResponse where
  | result (content : String)
  | error (message : String)
  | unrecognized
  | crash (message : String)
  deriving DecidableEq, Repr

/-- Observable actions of one processing step. -/
inductive Event where
  | backendCall (sender_id : Nat) (prompt : String)
  | reply (msg_id : Nat) (content : String)
  | logAppend (msg_id : Nat)
  deriving DecidableEq, Repr

/-- The loop's mutable state: the in-memory `processed_ids` set (as its insertion
list), the module-level `conversation_history` map, and the durable
`processed_ids.txt` log as the sequence of appended lines. -/
structure BotState where
  processed : List Nat
  history : Nat → List (String × String)
  log : List Nat

/-- Effect of `processed_ids.add(msg_id)` followed by `save_processed_id(msg_id)`: the set
gains the id (if absent), the durable log is appended unconditionally. -/
def record_id (st : BotState) (i : Nat) : BotState :=
  { st with processed := st.processed.insert i, log := st.log ++ [i] }

/-- The prompt `run.py` sends for a private message: the history is updated with the
`User` turn first, then the prompt is built from the updated history. -/
def private_prompt (knowledge : String) (st : BotState) (m : Message) : String :=
  build_prompt_with_history knowledge
    (update_history (st.history m.sender_id) "User" (m.text.getD ("")))
    (m.text.getD (""))

/-- The `if msg.is_private:` block of `run.py`: update history, build the prompt,
call the backend and dispatch on the response shape. The `method` substring test
on the lowercased error message guards the in-branch marking. -/
def handle_private (backend : Nat → String → BackendResponse) (knowledge : String)
    (st : BotState) (m : Message) : BotState × List Event :=
  let txt := m.text.getD ("")
  let hist := update_history (st.history m.sender_id) "User" txt
  let st1 : BotState := { st with history := Function.update st.history m.sender_id hist }
  let prompt := build_prompt_with_history knowledge hist txt
  match backend m.sender_id prompt with
  | .result content =>
      (record_id st1 m.id,
        [.backendCall m.sender_id prompt, .reply m.id content, .logAppend m.id])
  | .error emsg =>
      if mentionsMethod emsg then
        (st1, [.backendCall m.sender_id prompt])
      else
        (record_id st1 m.id, [.backendCall m.sender_id prompt, .logAppend m.id])
  | .unrecognized => (st1, [.backendCall m.sender_id prompt])
  | .crash _ => (st1, [.backendCall m.sender_id prompt])

/-- One iteration of the `for msg in reversed(messages)` body: skip self-authored,
textless or already-processed messages; run the private-chat block when applicable;
then the trailing unconditional `processed_ids.add` / `save_processed_id`. -/
def process_message (backend : Nat → String → BackendResponse) (knowledge : String)
    (st : BotState) (m : Message) : BotState × List Event :=
  if m.out = true ∨ m.hasText = false ∨ m.id ∈ st.processed then (st, [])
  else
    let r := if m.is_private then handle_private backend knowledge st m else (st, [])
    (record_id r.1 m.id, r.2 ++ [.logAppend m.id])

/-- Sequential processing of a list of messages, accumulating events in order. -/
def process_list (backend : Nat → String → BackendResponse) (knowledge : String) :
    BotState → List Message → BotState × List Event
  | st, [] => (st, [])
  | st, m :: ms =>
      let r := process_message backend knowledge st m
      let r2 := process_list backend knowledge r.1 ms
      (r2.1, r.2 ++ r2.2)

/-- A whole fetched batch (newest first, as returned by `client.get_messages`)
is processed in reverse: `for msg in reversed(messages)`. -/
def process_batch (backend : Nat → String → BackendResponse) (knowledge : String)
    (st : BotState) (msgs : List Message) : BotState × List Event :=
  process_list backend knowledge st msgs.reverse

/-- The ids replied to, in emission order. -/
def replyIds (evs : List Event) : List Nat :=
  evs.filterMap (fun e => match e with | .reply i _ => some i | _ => none)

/-- The periodic cleanup block of `run.py`: when more than 600 seconds have passed
since `last_check_time`, the set is compacted to `list(processed_ids)[-1000:]` if it
holds more than 1000 ids, and `last_check_time` is reset. The set is passed as an
arbitrary enumeration of its elements, as Python's `list(set)` order is unspecified. -/
def periodic_cleanup (now last_check_time : Nat) (processed_list : List Nat) :
    List Nat × Nat :=
  if 600 < now - last_check_time then
    (if 1000 < processed_list.length then lastN 1000 processed_list else processed_list, now)
  else
    (processed_list, last_check_time)

/-- The generator consumed by `set(...)` in `load_processed_ids`: blank lines are
skipped by the `if line.strip()` filter; `int(line.strip())` raising on any line
aborts the whole construction (`none`). -/
def collect_ids : List String → Option (List Int)
  | [] => some []
  | line :: rest =>
      if (pyStrip line.data).isEmpty then collect_ids rest
      else
        match pyInt (pyStrip line.data) with
        | none => none
        | some n => (collect_ids rest).map (fun s => s.insert n)

/-- Function `load_processed_ids` from `run.py`, as a function of the file's lines: the bare
`except` around the whole comprehension turns any parse failure into `return set()`. -/
def load_processed_ids (lines : List String) : List Int :=
  (collect_ids lines).getD []

/-- One user's history after a sequence of `update_history` appends, starting from
the `defaultdict(list)` initial value `[]`. -/
def fold_history (appends : List (String × String)) : List (String × String) :=
  appends.foldl (fun h p => update_history h p.1 p.2) []

/-- What one loop iteration reports: either the poll cycle's events, or the caught
`Loop Error`. -/
inductive LoopEvent where
  | cycle (evs : List Event)
  | loopError (message : String)
  deriving Repr

/-- The `while True:` body of `run.py`: a poll cycle that either yields a new state
and its events (followed by `time.sleep(2)`) or raises, in which case the exception
is caught at the loop boundary, logged, and followed by `time.sleep(5)`. Returns the
next state, the logged outcome and the sleep duration. -/
def loop_step (cycle : BotState → Except String (BotState × List Event)) (st : BotState) :
    BotState × LoopEvent × Nat :=
  match cycle st with
  | .ok r => (r.1, .cycle r.2, 2)
  | .error e => (st, .loopError e, 5)

/-- Iterating the polling loop `n` times; total for every `n`: no exception of the
cycle ever escapes, so the loop never terminates on a fault. -/
def run_loop (cycle : BotState → Except String (BotState × List Event)) :
    Nat → BotState → BotState
  | 0, st => st
  | n + 1, st => run_loop cycle n (loop_step cycle st).1

/-! ## Helper lemmas -/

lemma listSub_nil (l : List Char) : listSub [] l = true := by
  cases l <;> simp [listSub, isPre]

lemma isPre_append_self (p ys : List Char) : isPre p (p ++ ys) = true := by
  induction p with
  | nil => simp [isPre]
  | cons c cs ih => simp [isPre, ih]

lemma listSub_append_self (xs pat ys : List Char) : listSub pat (xs ++ (pat ++ ys)) = true := by
  induction xs with
  | nil =>
      cases pat with
      | nil => simpa using listSub_nil ys
      | cons p ps => simp [listSub, isPre, isPre_append_self]
  | cons x xs ih => simp [listSub, ih]

lemma strContains_of_data (s pat : String) (xs ys : List Char)
    (h : s.data = xs ++ (pat.data ++ ys)) : strContains s pat = true := by
  simp only [strContains, h]
  exact listSub_append_self xs pat.data ys

lemma lastN_suffix (n : Nat) (l : List α) : lastN n l <:+ l := List.drop_suffix _ _

lemma length_lastN (n : Nat) (l : List α) : (lastN n l).length = min n l.length := by
  simp only [lastN, List.length_drop]
  omega

lemma update_history_lastN (l : List (String × String)) (r t : String) :
    update_history (lastN (MAX_HISTORY * 2) l) r t = lastN (MAX_HISTORY * 2) (l ++ [(r, t)]) := by
  simp only [update_history, lastN, MAX_HISTORY, List.length_append, List.length_drop,
    List.length_cons, List.length_nil]
  by_cases h : 10 * 2 ≤ l.length
  · have e1 : l.length - (l.length - 10 * 2) = 10 * 2 := by omega
    rw [e1, if_pos (by omega)]
    have e2 : 10 * 2 + 1 - 10 * 2 = 1 := by omega
    have hlen1 : 1 ≤ (l.drop (l.length - 10 * 2)).length := by
      rw [List.length_drop]; omega
    rw [e2, List.drop_append_of_le_length hlen1, List.drop_drop]
    have hlen2 : l.length + 1 - 10 * 2 ≤ l.length := by omega
    rw [List.drop_append_of_le_length hlen2]
    have e3 : l.length - 10 * 2 + 1 = l.length + 1 - 10 * 2 := by omega
    rw [e3]
  · push_neg at h
    have e0 : l.length - 10 * 2 = 0 := by omega
    have e0' : l.length + 1 - 10 * 2 = 0 := by omega
    rw [e0, if_neg (by omega), List.drop_zero]
    rw [e0', List.drop_zero]

lemma fold_history_eq (appends : List (String × String)) :
    fold_history appends = lastN (MAX_HISTORY * 2) appends := by
  induction appends using List.reverseRecOn with
  | nil => rfl
  | append_singleton l p ih =>
      unfold fold_history at ih ⊢
      rw [List.foldl_append, List.foldl_cons, List.foldl_nil, ih]
      exact update_history_lastN l p.1 p.2

lemma collect_ids_eq_none_of_bad (lines : List String)
    (h : ∃ l ∈ lines, (pyStrip l.data).isEmpty = false ∧ pyInt (pyStrip l.data) = none) :
    collect_ids lines = none := by
  induction lines with
  | nil => simp at h
  | cons a rest ih =>
      obtain ⟨l, hl, hne, hparse⟩ := h
      rcases List.mem_cons.mp hl with rfl | hmem
      · simp only [collect_ids]
        rw [if_neg (by simp [hne]), hparse]
      · by_cases ha : (pyStrip a.data).isEmpty = true
        · simp only [collect_ids]
          rw [if_pos ha]
          exact ih ⟨l, hmem, hne, hparse⟩
        · simp only [collect_ids]
          rw [if_neg ha]
          cases hp : pyInt (pyStrip a.data) with
          | none => rfl
          | some n => rw [ih ⟨l, hmem, hne, hparse⟩]; rfl

/-! ## Claims -/

/-- C2 counterexample: the claim "load() skips malformed lines individually; for a
file `abc\n123\n` it returns {123}" is false on the code: `int("abc")` raises inside
the single `set(...)` comprehension, the bare `except` catches it, and the whole load
falls back to the empty set — 123 is not recovered. -/
theorem C2_claim_false_on_abc123 :
    load_processed_ids ["abc", "123"] = [] ∧ (123 : Int) ∉ load_processed_ids ["abc", "123"] := by
  decide

/-- C2 (amended): loading the dedup store does not skip malformed lines
individually: any non-blank line that fails integer parsing aborts the whole read
and `load_processed_ids` degrades to the empty set (startup still does not fail).
In particular the file `abc\n123\n` loads as the empty set, not {123}. -/
theorem C2_load_empty_on_malformed (lines : List String)
    (h : ∃ l ∈ lines, (pyStrip l.data).isEmpty = false ∧ pyInt (pyStrip l.data) = none) :
    load_processed_ids lines = [] := by
  unfold load_processed_ids
  rw [collect_ids_eq_none_of_bad lines h]
  rfl

/-- C2 witness: the amended statement evaluated on the spec's scenario file. -/
theorem C2_load_empty_witness : load_processed_ids ["abc", "123"] = [] :=
  C2_load_empty_on_malformed ["abc", "123"] (by decide)

/-- C3: after any sequence of appends the stored history holds at most
`2 * MAX_HISTORY` entries — exactly the most recent ones, oldest dropped first
(it is a suffix of the append sequence of length `min (2 * MAX_HISTORY)`) — the
rendered block is built from the at most `MAX_HISTORY` most recent entries in
chronological order (a suffix of the stored history), and the rendered block is
empty exactly when no history exists. -/
theorem C3_history_bounds (appends : List (String × String)) :
    (fold_history appends).length ≤ MAX_HISTORY * 2 ∧
    (fold_history appends).length = min (MAX_HISTORY * 2) appends.length ∧
    fold_history appends <:+ appends ∧
    (lastN MAX_HISTORY (fold_history appends)).length ≤ MAX_HISTORY ∧
    lastN MAX_HISTORY (fold_history appends) <:+ fold_history appends ∧
    (fold_history appends ≠ [] →
      history_text (fold_history appends) =
        "Previous conversation:\n" ++
          String.join ((lastN MAX_HISTORY (fold_history appends)).map
            (fun p => p.1 ++ ": " ++ p.2 ++ "\n")) ++ "\n") ∧
    (history_text (fold_history appends) = "" ↔ fold_history appends = []) := by
  have hlen : (fold_history appends).length = min (MAX_HISTORY * 2) appends.length := by
    rw [fold_history_eq, length_lastN]
  have hne : ∀ h : List (String × String), h ≠ [] →
      history_text h =
        "Previous conversation:\n" ++
          String.join ((lastN MAX_HISTORY h).map (fun p => p.1 ++ ": " ++ p.2 ++ "\n")) ++ "\n" := by
    intro h hh
    rw [history_text, if_neg (by simpa using hh)]
  refine ⟨by omega, hlen, by rw [fold_history_eq]; exact lastN_suffix _ _,
    by rw [length_lastN]; omega, lastN_suffix _ _, hne _, ?_⟩
  constructor
  · intro hempty
    by_contra hnil
    rw [hne _ hnil] at hempty
    have := congrArg String.length hempty
    rw [String.length_append, String.length_append] at this
    have h23 : ("Previous conversation:\n" : String).length = 23 := rfl
    have h1 : ("\n" : String).length = 1 := rfl
    have h0 : ("" : String).length = 0 := rfl
    omega
  · intro hnil
    rw [hnil, history_text]
    rfl

/-- C3 witness: after 25 appends the stored history is within the 20-entry bound. -/
theorem C3_history_witness :
    (fold_history (List.replicate 25 ("User", "x"))).length ≤ MAX_HISTORY * 2 :=
  (C3_history_bounds (List.replicate 25 ("User", "x"))).1

lemma process_message_skipped (backend : Nat → String → BackendResponse) (knowledge : String)
    (st : BotState) (m : Message)
    (h : m.out = true ∨ m.hasText = false ∨ m.id ∈ st.processed) :
    process_message backend knowledge st m = (st, []) := by
  rw [process_message, if_pos h]

lemma process_message_not_skipped (backend : Nat → String → BackendResponse) (knowledge : String)
    (st : BotState) (m : Message)
    (h1 : m.out = false) (h2 : m.hasText = true) (h3 : m.id ∉ st.processed) :
    process_message backend knowledge st m =
      (record_id (if m.is_private then handle_private backend knowledge st m else (st, [])).1 m.id,
        (if m.is_private then handle_private backend knowledge st m else (st, [])).2 ++
          [Event.logAppend m.id]) := by
  rw [process_message, if_neg]
  rintro (h | h | h) <;> simp_all

lemma process_list_all_processed (backend : Nat → String → BackendResponse) (knowledge : String) :
    ∀ (l : List Message) (st : BotState), (∀ m ∈ l, m.id ∈ st.processed) →
      process_list backend knowledge st l = (st, []) := by
  intro l
  induction l with
  | nil => intro st _; rfl
  | cons m ms ih =>
      intro st h
      have h1 := process_message_skipped backend knowledge st m
        (Or.inr (Or.inr (h m (List.mem_cons_self m ms))))
      have h2 := ih st (fun x hx => h x (List.mem_cons_of_mem m hx))
      simp [process_list, h1, h2]

/-- C1: evaluating the code at the failing input — a fresh private message (id 42,
text "hi") whose backend response is an error mentioning "method". The error branch
skips its own marking, but the trailing unconditional record still adds id 42 to the
dedup set and appends it to the log; a later poll with the same id and filter state
produces no events at all (the message is skipped), so the claimed retry never
happens. -/
theorem C1_method_error_marked_anyway :
    (process_message (fun _ _ => BackendResponse.error ("no such method")) "K"
        ⟨[], fun _ => [], []⟩ ⟨42, 3, some ("hi"), false, true⟩).1.processed = [42] ∧
    (process_message (fun _ _ => BackendResponse.error ("no such method")) "K"
        ⟨[], fun _ => [], []⟩ ⟨42, 3, some ("hi"), false, true⟩).1.log = [42] ∧
    replyIds (process_message (fun _ _ => BackendResponse.error ("no such method")) "K"
        ⟨[], fun _ => [], []⟩ ⟨42, 3, some ("hi"), false, true⟩).2 = [] ∧
    (process_message (fun _ _ => BackendResponse.error ("no such method")) "K"
        ⟨[42], fun _ => [], [42]⟩ ⟨42, 3, some ("hi"), false, true⟩).2 = [] := by
  decide

/-- C4: a message that is self-authored, textless, non-private, or already in the
dedup set triggers no backend call and no reply; and re-processing a batch whose ids
are all already in the dedup set leaves the state unchanged and emits no events at
all — in particular no additional reply and no duplicate log entry. -/
theorem C4_filter_correctness (backend : Nat → String → BackendResponse) (knowledge : String)
    (st : BotState) :
    (∀ m : Message,
        m.out = true ∨ m.hasText = false ∨ m.is_private = false ∨ m.id ∈ st.processed →
        (∀ s p, Event.backendCall s p ∉ (process_message backend knowledge st m).2) ∧
        (∀ i c, Event.reply i c ∉ (process_message backend knowledge st m).2)) ∧
    (∀ msgs : List Message, (∀ m ∈ msgs, m.id ∈ st.processed) →
        process_batch backend knowledge st msgs = (st, [])) := by
  constructor
  · intro m h
    by_cases hskip : m.out = true ∨ m.hasText = false ∨ m.id ∈ st.processed
    · rw [process_message_skipped backend knowledge st m hskip]
      simp
    · have hpriv : m.is_private = false := by
        rcases h with h | h | h | h
        · exact absurd (Or.inl h) hskip
        · exact absurd (Or.inr (Or.inl h)) hskip
        · exact h
        · exact absurd (Or.inr (Or.inr h)) hskip
      push_neg at hskip
      obtain ⟨ho, ht, hid⟩ := hskip
      rw [process_message_not_skipped backend knowledge st m (by simpa using ho)
          (by simpa using ht) hid, if_neg (by simp [hpriv])]
      simp
  · intro msgs h
    unfold process_batch
    exact process_list_all_processed backend knowledge msgs.reverse st
      (fun m hm => h m (List.mem_reverse.mp hm))

/-- C4 witness: a batch whose single id is already processed is a no-op. -/
theorem C4_filter_witness :
    process_batch (fun _ _ => BackendResponse.result ("ok")) "K"
        ⟨[5], fun _ => [], [5]⟩ [⟨5, 1, some ("x"), false, true⟩] =
      (⟨[5], fun _ => [], [5]⟩, []) :=
  (C4_filter_correctness (fun _ _ => BackendResponse.result ("ok")) "K"
    ⟨[5], fun _ => [], [5]⟩).2 [⟨5, 1, some ("x"), false, true⟩] (by decide)

/-- C9: every message passing the skip filter (inbound, with text, unseen id) ends
its iteration added to the dedup set, with the log's last appended line being its id
and a log-append event emitted, even when it is not a private chat — in which case
the iteration is exactly the trailing record and nothing else. -/
theorem C9_passed_filter_always_recorded (backend : Nat → String → BackendResponse)
    (knowledge : String) (st : BotState) (m : Message)
    (h1 : m.out = false) (h2 : m.hasText = true) (h3 : m.id ∉ st.processed) :
    m.id ∈ (process_message backend knowledge st m).1.processed ∧
    (process_message backend knowledge st m).1.log.getLast? = some m.id ∧
    Event.logAppend m.id ∈ (process_message backend knowledge st m).2 ∧
    (m.is_private = false →
      process_message backend knowledge st m = (record_id st m.id, [Event.logAppend m.id])) := by
  rw [process_message_not_skipped backend knowledge st m h1 h2 h3]
  refine ⟨List.mem_insert_self _ _, List.getLast?_concat _, List.mem_append_right _ (by simp), ?_⟩
  intro hp
  rw [if_neg (by simp [hp])]
  rfl

/-- C9 witness: a fresh non-private group message is recorded but otherwise ignored. -/
theorem C9_record_witness :
    process_message (fun _ _ => BackendResponse.result ("ok")) "K"
        ⟨[], fun _ => [], []⟩ ⟨8, 2, some ("x"), false, false⟩ =
      (record_id ⟨[], fun _ => [], []⟩ 8, [Event.logAppend 8]) :=
  (C9_passed_filter_always_recorded (fun _ _ => BackendResponse.result ("ok")) "K"
    ⟨[], fun _ => [], []⟩ ⟨8, 2, some ("x"), false, false⟩ rfl rfl (by decide)).2.2.2 rfl

/-- C10: a fresh private message whose backend response is a successful result, or an
error not mentioning "method", has its id appended to the durable log twice within the
single processing pass — once in the response branch and once by the trailing
unconditional record. -/
theorem C10_success_or_error_logs_twice (backend : Nat → String → BackendResponse)
    (knowledge : String) (st : BotState) (m : Message)
    (h1 : m.out = false) (h2 : m.hasText = true) (h3 : m.id ∉ st.processed)
    (h4 : m.is_private = true)
    (h5 : (∃ c, backend m.sender_id (private_prompt knowledge st m) = BackendResponse.result c) ∨
          (∃ emsg, backend m.sender_id (private_prompt knowledge st m) =
              BackendResponse.error emsg ∧ mentionsMethod emsg = false)) :
    (process_message backend knowledge st m).1.log = st.log ++ [m.id, m.id] ∧
    (process_message backend knowledge st m).2.count (Event.logAppend m.id) = 2 := by
  rw [process_message_not_skipped backend knowledge st m h1 h2 h3, if_pos h4]
  simp only [handle_private]
  rcases h5 with ⟨c, hc⟩ | ⟨emsg, he, hm⟩
  · simp only [private_prompt] at hc
    rw [hc]
    constructor
    · simp [record_id]
    · simp [List.count_append, List.count_cons, List.count_nil]
  · simp only [private_prompt] at he
    rw [he]
    constructor
    · simp [record_id, hm]
    · simp [record_id, hm, List.count_append, List.count_cons, List.count_nil]

/-- C10 witness: a concrete fresh private message against a successful backend has
its id logged twice in one pass. -/
theorem C10_double_log_witness :
    (process_message (fun _ _ => BackendResponse.result ("ok")) "K"
        ⟨[], fun _ => [], []⟩ ⟨9, 4, some ("hi"), false, true⟩).1.log = [] ++ [9, 9] ∧
    (process_message (fun _ _ => BackendResponse.result ("ok")) "K"
        ⟨[], fun _ => [], []⟩ ⟨9, 4, some ("hi"), false, true⟩).2.count (Event.logAppend 9) = 2 :=
  C10_success_or_error_logs_twice (fun _ _ => BackendResponse.result ("ok")) "K"
    ⟨[], fun _ => [], []⟩ ⟨9, 4, some ("hi"), false, true⟩ rfl rfl (by decide) rfl
    (Or.inl ⟨"ok", rfl⟩)

lemma build_contains_current_hello (knowledge : String) (history : List (String × String)) :
    strContains (build_prompt_with_history knowledge history ("Hello"))
      "Current message: Hello" = true := by
  have hsplit : ("Current message: Hello" : String).data =
      ("Current message: " : String).data ++ ("Hello" : String).data := by decide
  apply strContains_of_data _ _ (knowledge.data ++ ("\n\n    " : String).data ++
    (history_text history).data)
    (("\n\n    Please respond appropriately based on the context and previous conversation." :
      String).data)
  simp [build_prompt_with_history, String.data_append, hsplit, List.append_assoc]

/-- C6: the prompt builder is a pure function concatenating, in fixed order, the
knowledge text, the previous-conversation block (empty exactly when the history is
empty, and announced by a "Previous conversation:" label otherwise), the
"Current message:" line and the fixed instruction suffix; for message text "Hello"
the built prompt contains "Current message: Hello", and that exact prompt is the one
carried by the backend-call event of a fresh private message. -/
theorem C6_prompt_builder (knowledge current : String) (history : List (String × String)) :
    build_prompt_with_history knowledge history current =
      knowledge ++ "\n\n    " ++ history_text history ++ "Current message: " ++ current ++
        "\n\n    Please respond appropriately based on the context and previous conversation." ∧
    (history = [] → history_text history = "") ∧
    (history ≠ [] → strContains (history_text history) "Previous conversation:" = true) ∧
    strContains (build_prompt_with_history knowledge history ("Hello"))
      "Current message: Hello" = true ∧
    (∀ (backend : Nat → String → BackendResponse) (st : BotState) (m : Message),
        m.out = false → m.hasText = true → m.is_private = true → m.id ∉ st.processed →
        Event.backendCall m.sender_id (private_prompt knowledge st m)
          ∈ (process_message backend knowledge st m).2 ∧
        (m.text = some ("Hello") →
          strContains (private_prompt knowledge st m) "Current message: Hello" = true)) := by
  refine ⟨rfl, ?_, ?_, build_contains_current_hello knowledge history, ?_⟩
  · intro h
    rw [h, history_text]
    rfl
  · intro h
    rw [history_text, if_neg (by simpa using h)]
    have hsplit : ("Previous conversation:\n" : String).data =
        ("Previous conversation:" : String).data ++ ("\n" : String).data := by decide
    apply strContains_of_data _ _ []
      (("\n" : String).data ++
        (String.join ((lastN MAX_HISTORY history).map
          (fun p => p.1 ++ ": " ++ p.2 ++ "\n"))).data ++ ("\n" : String).data)
    simp [String.data_append, hsplit, List.append_assoc]
  · intro backend st m ho ht hp hid
    constructor
    · rw [process_message_not_skipped backend knowledge st m ho ht hid, if_pos hp]
      apply List.mem_append_left
      simp only [private_prompt, handle_private]
      cases backend m.sender_id (build_prompt_with_history knowledge
          (update_history (st.history m.sender_id) "User" (m.text.getD ("")))
          (m.text.getD (""))) with
      | result c => simp
      | error e => by_cases hme : mentionsMethod e = true <;> simp [hme]
      | unrecognized => simp
      | crash e => simp
    · intro htxt
      simp only [private_prompt, htxt, Option.getD_some]
      exact build_contains_current_hello knowledge
        (update_history (st.history m.sender_id) "User" ("Hello"))

/-- C6 witness: the builder's output for a non-empty history contains the current
message line, and the backend-call event of a concrete fresh private "Hello" message
carries exactly the prompt built from its updated history. -/
theorem C6_prompt_witness :
    strContains (build_prompt_with_history ("K") [("User", "hi")] "Hello")
      "Current message: Hello" = true ∧
    Event.backendCall 3 (private_prompt ("K") ⟨[], fun _ => [], []⟩ ⟨42, 3, some ("Hello"), false, true⟩)
      ∈ (process_message (fun _ _ => BackendResponse.result ("ok")) "K"
          ⟨[], fun _ => [], []⟩ ⟨42, 3, some ("Hello"), false, true⟩).2 :=
  ⟨(C6_prompt_builder ("K") "Hello" [("User", "hi")]).2.2.2.1,
   ((C6_prompt_builder ("K") "x" []).2.2.2.2 (fun _ _ => BackendResponse.result ("ok"))
      ⟨[], fun _ => [], []⟩ ⟨42, 3, some ("Hello"), false, true⟩ rfl (by decide) rfl
      (by decide)).1⟩

/-- C5: the periodic cleanup changes the set only when it holds more than 1000 ids
and at least 600 seconds have elapsed since the last check; the result is always a
suffix (hence a subset) of the enumeration, and when compaction does run the result
is the last 1000 elements of the enumeration, of size at most 1000. -/
theorem C5_compaction_bound (now last_check_time : Nat) (l : List Nat) :
    ((periodic_cleanup now last_check_time l).1 ≠ l →
      1000 < l.length ∧ 600 ≤ now - last_check_time) ∧
    (periodic_cleanup now last_check_time l).1 <:+ l ∧
    (600 < now - last_check_time → 1000 < l.length →
      (periodic_cleanup now last_check_time l).1 = lastN 1000 l ∧
      (periodic_cleanup now last_check_time l).1.length ≤ 1000) := by
  refine ⟨?_, ?_, ?_⟩
  · intro hne
    by_cases h1 : 600 < now - last_check_time
    · by_cases h2 : 1000 < l.length
      · exact ⟨h2, Nat.le_of_lt h1⟩
      · exact absurd (by simp [periodic_cleanup, h1, h2]) hne
    · exact absurd (by simp [periodic_cleanup, h1]) hne
  · by_cases h1 : 600 < now - last_check_time
    · by_cases h2 : 1000 < l.length
      · have he : (periodic_cleanup now last_check_time l).1 = lastN 1000 l := by
          simp [periodic_cleanup, h1, h2]
        rw [he]
        exact lastN_suffix _ _
      · have he : (periodic_cleanup now last_check_time l).1 = l := by
          simp [periodic_cleanup, h1, h2]
        rw [he]
    · have he : (periodic_cleanup now last_check_time l).1 = l := by
        simp [periodic_cleanup, h1]
      rw [he]
  · intro h1 h2
    have he : (periodic_cleanup now last_check_time l).1 = lastN 1000 l := by
      simp [periodic_cleanup, h1, h2]
    rw [he, length_lastN]
    exact ⟨rfl, by omega⟩

/-- C5 witness: with 1001 ids and 700 elapsed seconds, compaction runs and keeps the
last 1000 enumerated ids. -/
theorem C5_compaction_witness :
    (periodic_cleanup 700 0 (List.range 1001)).1 = lastN 1000 (List.range 1001) ∧
    (periodic_cleanup 700 0 (List.range 1001)).1.length ≤ 1000 :=
  (C5_compaction_bound 700 0 (List.range 1001)).2.2 (by omega)
    (by rw [List.length_range]; omega)

lemma process_message_fresh_private (backend : Nat → String → BackendResponse)
    (knowledge : String) (st : BotState) (m : Message)
    (ho : m.out = false) (ht : m.hasText = true) (hp : m.is_private = true)
    (hid : m.id ∉ st.processed) (c : String)
    (hc : backend m.sender_id (private_prompt knowledge st m) = BackendResponse.result c) :
    replyIds (process_message backend knowledge st m).2 = [m.id] ∧
    ∀ x, x ∈ (process_message backend knowledge st m).1.processed ↔
      x = m.id ∨ x ∈ st.processed := by
  rw [process_message_not_skipped backend knowledge st m ho ht hid, if_pos hp]
  simp only [handle_private]
  simp only [private_prompt] at hc
  rw [hc]
  constructor
  · simp [replyIds]
  · intro x
    simp only [record_id]
    simp [List.mem_insert_iff]

lemma process_list_fresh (backend : Nat → String → BackendResponse) (knowledge : String)
    (hb : ∀ s p, ∃ c, backend s p = BackendResponse.result c) :
    ∀ (l : List Message) (st : BotState),
      (∀ m ∈ l, m.out = false ∧ m.hasText = true ∧ m.is_private = true) →
      (l.map Message.id).Nodup →
      (∀ m ∈ l, m.id ∉ st.processed) →
      replyIds (process_list backend knowledge st l).2 = l.map Message.id ∧
      ∀ x, x ∈ (process_list backend knowledge st l).1.processed ↔
        x ∈ st.processed ∨ x ∈ l.map Message.id := by
  intro l
  induction l with
  | nil => intro st _ _ _; exact ⟨rfl, fun x => by simp [process_list]⟩
  | cons m ms ih =>
      intro st hall hnd hfresh
      obtain ⟨c, hc⟩ := hb m.sender_id (private_prompt knowledge st m)
      obtain ⟨hm1, hm2, hm3⟩ := hall m (List.mem_cons_self m ms)
      obtain ⟨hr, hmem⟩ := process_message_fresh_private backend knowledge st m hm1 hm2 hm3
        (hfresh m (List.mem_cons_self m ms)) c hc
      have hnd' := hnd
      rw [List.map_cons, List.nodup_cons] at hnd'
      have hfresh' : ∀ m' ∈ ms, m'.id ∉ (process_message backend knowledge st m).1.processed := by
        intro m' hm'
        rw [hmem]
        rintro (h | h)
        · exact hnd'.1 (h ▸ List.mem_map_of_mem Message.id hm')
        · exact hfresh m' (List.mem_cons_of_mem m hm') h
      obtain ⟨ih1, ih2⟩ := ih (process_message backend knowledge st m).1
        (fun x hx => hall x (List.mem_cons_of_mem m hx)) hnd'.2 hfresh'
      constructor
      · simp only [process_list, replyIds, List.filterMap_append]
        simp only [replyIds] at hr ih1
        rw [hr, ih1, List.map_cons]
        rfl
      · intro x
        simp only [process_list]
        rw [ih2 x, hmem x, List.map_cons]
        simp only [List.mem_cons]
        tauto

/-- C7: a fetched batch (ordered newest first) of fresh, text-bearing, inbound
private messages with pairwise distinct ids, processed against an always-successful
backend, produces its replies in exactly the reverse of fetch order: the sequence of
replied ids equals the batch ids reversed, i.e. oldest to newest. -/
theorem C7_replies_oldest_to_newest (backend : Nat → String → BackendResponse)
    (knowledge : String) (st : BotState) (msgs : List Message)
    (hb : ∀ s p, ∃ c, backend s p = BackendResponse.result c)
    (hall : ∀ m ∈ msgs, m.out = false ∧ m.hasText = true ∧ m.is_private = true)
    (hnd : (msgs.map Message.id).Nodup)
    (hfresh : ∀ m ∈ msgs, m.id ∉ st.processed) :
    replyIds (process_batch backend knowledge st msgs).2 = (msgs.map Message.id).reverse := by
  unfold process_batch
  have h := (process_list_fresh backend knowledge hb msgs.reverse st
    (fun m hm => hall m (List.mem_reverse.mp hm))
    (by rw [List.map_reverse]; exact List.nodup_reverse.mpr hnd)
    (fun m hm => hfresh m (List.mem_reverse.mp hm))).1
  rw [h, List.map_reverse]

/-- C7 witness: a two-message batch fetched newest-first (ids 2 then 1) is replied
to oldest-first: replies go out for id 1, then id 2. -/
theorem C7_reply_order_witness :
    replyIds (process_batch (fun _ _ => BackendResponse.result ("ok")) "K"
        ⟨[], fun _ => [], []⟩
        [⟨2, 9, some ("b"), false, true⟩, ⟨1, 9, some ("a"), false, true⟩]).2 = [1, 2] := by
  have h := C7_replies_oldest_to_newest (fun _ _ => BackendResponse.result ("ok")) "K"
    ⟨[], fun _ => [], []⟩ [⟨2, 9, some ("b"), false, true⟩, ⟨1, 9, some ("a"), false, true⟩]
    (fun s p => ⟨"ok", rfl⟩) (by decide) (by decide) (by decide)
  simpa using h

/-- C8: an exception escaping a poll cycle is caught at the loop boundary: the loop
step logs the error, keeps the state, and sleeps 5 seconds; and the loop then resumes
— iteration `n + 1` is iteration `n` from the retained state, for every `n`, so no
cycle fault ever terminates the polling loop. -/
theorem C8_loop_survives_cycle_fault (cycle : BotState → Except String (BotState × List Event))
    (st : BotState) (e : String) (h : cycle st = Except.error e) :
    loop_step cycle st = (st, LoopEvent.loopError e, 5) ∧
    ∀ n, run_loop cycle (n + 1) st = run_loop cycle n st := by
  constructor
  · simp [loop_step, h]
  · intro n
    show run_loop cycle n (loop_step cycle st).1 = run_loop cycle n st
    simp [loop_step, h]

/-- C8 witness: a cycle that always raises is caught, logged and retried with a
5 second backoff, and one more iteration from the same state is a no-op rather than
a crash. -/
theorem C8_loop_witness :
    loop_step (fun _ => Except.error ("boom")) ⟨[], fun _ => [], []⟩ =
      (⟨[], fun _ => [], []⟩, LoopEvent.loopError ("boom"), 5) ∧
    run_loop (fun _ => Except.error ("boom")) 1 ⟨[], fun _ => [], []⟩ =
      run_loop (fun _ => Except.error ("boom")) 0 ⟨[], fun _ => [], []⟩ :=
  ⟨(C8_loop_survives_cycle_fault (fun _ => Except.error ("boom")) ⟨[], fun _ => [], []⟩
      "boom" rfl).1,
   (C8_loop_survives_cycle_fault (fun _ => Except.error ("boom")) ⟨[], fun _ => [], []⟩
      "boom" rfl).2 0⟩

end CabloBot
